import Mathlib

/-!
Shallow embedding of `src/main.py` of the herbIntel repository: a read-only
API over three collections (`herbs`, `phytochemicals`, `herb_phytochemical`)
with two hand-rolled join endpoints and a search endpoint that delegates
relevance scoring to an external reranking call.

The Supabase store is modelled as three Lean lists; each query builder chain
(`.select("*").ilike(...)` / `.in_(...)`) becomes the corresponding list
filter, preserving store order.  Endpoints become pure functions of the
database state returning `Except ApiError`; the external Cohere rerank call
becomes a function parameter returning `Except String (List RerankResult)`.
Relevance scores are modelled as rationals.
-/

set_option autoImplicit false

namespace HerbIntel

/-- Row of the `herbs` collection. -/
structure Herb where
  herb_id : Nat
  herb_name : String
  scientific_name : String
  uses : String
  origin : String
  source_url : String
deriving DecidableEq

/-- Row of the `phytochemicals` collection. -/
structure Compound where
  compound_id : Nat
  compound_name : String
  function : String
  chemical_structure : String
  compound_type : String
  source_url : String
deriving DecidableEq

/-- Row of the `herb_phytochemical` link collection. -/
structure Link where
  herb_id : Nat
  compound_id : Nat
deriving DecidableEq

/-- The state of the external data store: the three collections, in store
order. -/
structure DB where
  herbs : List Herb
  phytochemicals : List Compound
  herb_phytochemical : List Link
deriving DecidableEq

/-- Substring test on character lists: `needle` occurs as a contiguous
infix of the second argument. -/
def icontainsAux (needle : List Char) : List Char → Bool
  | [] => needle.isEmpty
  | c :: rest => needle.isPrefixOf (c :: rest) || icontainsAux needle rest

/-- Case-insensitive substring match, the model of
`.ilike("col", "%pat%")`. -/
def icontains (hay needle : String) : Bool :=
  icontainsAux (needle.data.map Char.toLower) (hay.data.map Char.toLower)

/-- Errors an endpoint can produce: an `HTTPException(status, detail)`, or an
unhandled Python exception (surfaced by the framework as a bare 500). -/
inductive ApiError where
  | http (status : Nat) (detail : String)
  | internalError
deriving DecidableEq

/-- Embedded compound record built inside `get_herb`'s mapping loop. -/
structure PhytoEntry where
  compound_name : String
  function : String
  compound_type : String
  source_url : String
deriving DecidableEq

/-- Embedded herb record built inside `get_phytochemical`'s mapping loop. -/
structure HerbRefEntry where
  herb_name : String
  scientific_name : String
  uses : String
  source_url : String
deriving DecidableEq

/-- Response record of `GET /herbs/{herb_name}`. -/
structure HerbRecord where
  herb_name : String
  scientific_name : String
  uses : String
  origin : String
  source_url : String
  phytochemicals : List PhytoEntry
deriving DecidableEq

/-- Response record of `GET /phytochemicals/{compound_name}`. -/
structure CompoundRecord where
  compound_name : String
  function : String
  chemical_structure : String
  compound_type : String
  source_url : String
  related_herbs : List HerbRefEntry
deriving DecidableEq

/-- Projection of a compound row to the embedded dict appended in
`get_herb` (main.py lines 61-66). -/
def compoundEntry (c : Compound) : PhytoEntry :=
  { compound_name := c.compound_name
    function := c.function
    compound_type := c.compound_type
    source_url := c.source_url }

/-- Projection of a herb row to the embedded dict appended in
`get_phytochemical` (main.py lines 93-98). -/
def herbRefEntry (h : Herb) : HerbRefEntry :=
  { herb_name := h.herb_name
    scientific_name := h.scientific_name
    uses := h.uses
    source_url := h.source_url }

/-- `get_related_compounds` (main.py lines 26-33): fetch the link rows whose
`herb_id` is in `herb_ids`; if none, return `[]`; otherwise collect their
`compound_id`s and fetch the compound rows with those ids. -/
def get_related_compounds (db : DB) (herb_ids : List Nat) : List Compound :=
  let hp := db.herb_phytochemical.filter (fun l => decide (l.herb_id ∈ herb_ids))
  if hp.isEmpty then []
  else
    let compound_ids := hp.map (fun l => l.compound_id)
    db.phytochemicals.filter (fun c => decide (c.compound_id ∈ compound_ids))

/-- `get_related_herbs` (main.py lines 36-43), the mirror of
`get_related_compounds`. -/
def get_related_herbs (db : DB) (compound_ids : List Nat) : List Herb :=
  let hp := db.herb_phytochemical.filter (fun l => decide (l.compound_id ∈ compound_ids))
  if hp.isEmpty then []
  else
    let herb_ids := hp.map (fun l => l.herb_id)
    db.herbs.filter (fun h => decide (h.herb_id ∈ herb_ids))

/-- The rows matched by `supabase.table("herbs").ilike("herb_name",
f"%\x7bherb_name\x7d%")` in `get_herb`. -/
def matchedHerbs (db : DB) (name : String) : List Herb :=
  db.herbs.filter (fun h => icontains h.herb_name name)

/-- The rows matched by the `ilike` filter on `compound_name` in
`get_phytochemical`. -/
def matchedCompounds (db : DB) (name : String) : List Compound :=
  db.phytochemicals.filter (fun c => icontains c.compound_name name)

/-- One step of the `compound_map` / `herb_map` building loop: look a link
up via `lookup`; on success append the entry under key `key hp` of the map
(Python `dict.setdefault(k, []).append(v)`), on `None` skip the link.  The
Python dict is modelled as a total function defaulting to `[]`, which is
exactly what `setdefault(k, [])` and `get(k, [])` observe. -/
def updMap {ε : Type} (lookup : Link → Option ε) (key : Link → Nat)
    (m : Nat → List ε) (hp : Link) : Nat → List ε :=
  match lookup hp with
  | some e => fun id => if id = key hp then m id ++ [e] else m id
  | none => m

/-- The `compound_map` dict of `get_herb` (main.py lines 57-66): iterate the
link rows with `herb_id` in `herb_ids`, look each link's compound up in the
fetched `compounds` list with `next(...)`, and group the found entries by
`herb_id`. -/
def buildCompoundMap (compounds : List Compound) (links : List Link) :
    Nat → List PhytoEntry :=
  links.foldl
    (updMap
      (fun hp =>
        (compounds.find? (fun c => c.compound_id == hp.compound_id)).map compoundEntry)
      (fun hp => hp.herb_id))
    (fun _ => [])

/-- The `herb_map` dict of `get_phytochemical` (main.py lines 89-98). -/
def buildHerbMap (herbs : List Herb) (links : List Link) :
    Nat → List HerbRefEntry :=
  links.foldl
    (updMap
      (fun hp =>
        (herbs.find? (fun h => h.herb_id == hp.herb_id)).map herbRefEntry)
      (fun hp => hp.compound_id))
    (fun _ => [])

/-- `GET /herbs/{herb_name}` (main.py lines 45-75). -/
def get_herb (db : DB) (herb_name : String) : Except ApiError (List HerbRecord) :=
  let herbs := matchedHerbs db herb_name
  if herbs.isEmpty then .error (.http 404 ("Herb not found"))
  else
    let herb_ids := herbs.map (fun h => h.herb_id)
    let compounds := get_related_compounds db herb_ids
    let links := db.herb_phytochemical.filter (fun l => decide (l.herb_id ∈ herb_ids))
    let compound_map := buildCompoundMap compounds links
    .ok (herbs.map (fun h =>
      { herb_name := h.herb_name
        scientific_name := h.scientific_name
        uses := h.uses
        origin := h.origin
        source_url := h.source_url
        phytochemicals := compound_map h.herb_id }))

/-- `GET /phytochemicals/{compound_name}` (main.py lines 77-107). -/
def get_phytochemical (db : DB) (compound_name : String) :
    Except ApiError (List CompoundRecord) :=
  let compounds := matchedCompounds db compound_name
  if compounds.isEmpty then .error (.http 404 ("Compound not found"))
  else
    let compound_ids := compounds.map (fun c => c.compound_id)
    let herbs := get_related_herbs db compound_ids
    let links := db.herb_phytochemical.filter (fun l => decide (l.compound_id ∈ compound_ids))
    let herb_map := buildHerbMap herbs links
    .ok (compounds.map (fun c =>
      { compound_name := c.compound_name
        function := c.function
        chemical_structure := c.chemical_structure
        compound_type := c.compound_type
        source_url := c.source_url
        related_herbs := herb_map c.compound_id }))

/-- One scored result from the external rerank call: an index into the
submitted document list plus a relevance score. -/
structure RerankResult where
  index : Nat
  relevance_score : ℚ
deriving DecidableEq

/-- Metadata record built alongside each document in `search`. -/
structure MetaRec where
  type : String
  name : String
  info : String
  source_url : String
deriving DecidableEq, Inhabited

/-- Element of the list returned by `GET /search`. -/
structure SearchResult where
  type : String
  name : String
  info : String
  source_url : String
deriving DecidableEq

/-- Document string synthesized for a herb (main.py line 120). -/
def herbDoc (h : Herb) : String :=
  "Herb: " ++ h.herb_name ++ ". Uses: " ++ h.uses ++ ". Origin: " ++ h.origin

/-- Metadata record synthesized for a herb (main.py lines 122-127). -/
def herbMeta (h : Herb) : MetaRec :=
  { type := "herb", name := h.herb_name, info := h.uses, source_url := h.source_url }

/-- Document string synthesized for a compound (main.py line 130). -/
def compoundDoc (c : Compound) : String :=
  "Compound: " ++ c.compound_name ++ ". Function: " ++ c.function ++ ". Type: " ++ c.compound_type

/-- Metadata record synthesized for a compound (main.py lines 132-137). -/
def compoundMeta (c : Compound) : MetaRec :=
  { type := "compound", name := c.compound_name, info := c.function, source_url := c.source_url }

/-- The document/metadata assembly loops of `search` (main.py lines
116-137): starting from two empty lists, append one document string and one
metadata record per herb, then per compound. -/
def assembleCandidates (herbs : List Herb) (compounds : List Compound) :
    List String × List MetaRec :=
  let p := herbs.foldl (fun p h => (p.1 ++ [herbDoc h], p.2 ++ [herbMeta h])) ([], [])
  compounds.foldl (fun p c => (p.1 ++ [compoundDoc c], p.2 ++ [compoundMeta c])) p

/-- The `documents` list submitted to the rerank call. -/
def searchDocuments (db : DB) : List String :=
  (assembleCandidates db.herbs db.phytochemicals).1

/-- The `meta` list parallel to `searchDocuments`. -/
def searchMeta (db : DB) : List MetaRec :=
  (assembleCandidates db.herbs db.phytochemicals).2

/-- Projection applied to `meta[result.index]` when compiling search results
(main.py lines 154-160). -/
def projectMeta (m : MetaRec) : SearchResult :=
  { type := m.type, name := m.name, info := m.info, source_url := m.source_url }

/-- The result-compilation loop of `search` (main.py lines 151-160): keep a
result only if its relevance score exceeds 0.2, and look its metadata up by
index.  An out-of-range index is a Python `IndexError`, which aborts the
whole loop: modelled by `none`. -/
def compileResults (meta : List MetaRec) : List RerankResult → Option (List SearchResult)
  | [] => some []
  | r :: rs =>
    if (1 / 5 : ℚ) < r.relevance_score then
      match meta.get? r.index with
      | some d => (compileResults meta rs).map (fun tl => projectMeta d :: tl)
      | none => none
    else compileResults meta rs

/-- `GET /search` (main.py lines 109-162).  The external Cohere rerank call
is the parameter `rerank`: it receives the query and the assembled document
list and either fails with a message or returns scored results. -/
def search (rerank : String → List String → Except String (List RerankResult))
    (db : DB) (q : String) : Except ApiError (List SearchResult) :=
  let docs := searchDocuments db
  let meta := searchMeta db
  match rerank q docs with
  | .error e => .error (.http 500 ("Cohere error: " ++ e))
  | .ok results =>
    match compileResults meta results with
    | none => .error .internalError
    | some res => .ok (res.take 5)

deriving instance DecidableEq for Except

/-- Record that the specification predicts for one matched herb: its own
fields, plus one embedded entry per link row carrying this herb's id whose
compound can be found in the compounds table, in link order. -/
def herbRecordSpec (db : DB) (h : Herb) : HerbRecord :=
  { herb_name := h.herb_name
    scientific_name := h.scientific_name
    uses := h.uses
    origin := h.origin
    source_url := h.source_url
    phytochemicals := db.herb_phytochemical.filterMap (fun hp =>
      if h.herb_id = hp.herb_id then
        (db.phytochemicals.find? (fun c => c.compound_id == hp.compound_id)).map compoundEntry
      else none) }

/-- Record that the specification predicts for one matched compound. -/
def compoundRecordSpec (db : DB) (c : Compound) : CompoundRecord :=
  { compound_name := c.compound_name
    function := c.function
    chemical_structure := c.chemical_structure
    compound_type := c.compound_type
    source_url := c.source_url
    related_herbs := db.herb_phytochemical.filterMap (fun hp =>
      if c.compound_id = hp.compound_id then
        (db.herbs.find? (fun h => h.herb_id == hp.herb_id)).map herbRefEntry
      else none) }

/-- Fixture: the worked example of the specification, a turmeric herb row. -/
def exHerb : Herb :=
  { herb_id := 1, herb_name := "Turmeric", scientific_name := "Curcuma longa",
    uses := "anti-inflammatory", origin := "India", source_url := "u1" }

/-- Fixture: a curcumin compound row. -/
def exCompound : Compound :=
  { compound_id := 1, compound_name := "Curcumin", function := "anti-inflammatory",
    chemical_structure := "s", compound_type := "polyphenol", source_url := "u2" }

/-- Fixture: one herb, one compound, one link between them, plus one
dangling link to a compound id that is not in the table. -/
def exDB : DB :=
  { herbs := [exHerb], phytochemicals := [exCompound],
    herb_phytochemical := [{ herb_id := 1, compound_id := 1 }, { herb_id := 1, compound_id := 99 }] }

/-- Fixture: like `exDB` but with referential integrity — every link row
references an existing herb and an existing compound. -/
def exDBri : DB :=
  { herbs := [exHerb], phytochemicals := [exCompound],
    herb_phytochemical := [{ herb_id := 1, compound_id := 1 }] }

/-- Fixture: a database with all three collections empty. -/
def emptyDB : DB :=
  { herbs := [], phytochemicals := [], herb_phytochemical := [] }

/-- Fixture: one scored result, relevance 1, pointing at document 0. -/
def exResults : List RerankResult :=
  [{ index := 0, relevance_score := 1 }]

/-- Fixture: an external rerank call that always succeeds with the given
scored results. -/
def exRerank (rs : List RerankResult) :
    String → List String → Except String (List RerankResult) :=
  fun _ _ => .ok rs

/-- Fixture: an external rerank call that always raises. -/
def exRerankFail (msg : String) :
    String → List String → Except String (List RerankResult) :=
  fun _ _ => .error msg

/-! ### Characterization lemmas -/

/-- Unfolding the dict-building fold: the final map at key `id` lists, in
link order, the successful lookups of exactly the links whose key is `id`. -/
lemma foldl_updMap {ε : Type} (lookup : Link → Option ε) (key : Link → Nat) :
    ∀ (links : List Link) (m : Nat → List ε) (id : Nat),
      links.foldl (updMap lookup key) m id
        = m id ++ links.filterMap (fun hp => if id = key hp then lookup hp else none) := by
  intro links
  induction links with
  | nil => intro m id; simp
  | cons hp ls ih =>
    intro m id
    rw [List.foldl_cons, ih, List.filterMap_cons]
    by_cases hk : id = key hp
    · cases hlk : lookup hp with
      | none => simp [updMap, hlk]
      | some e => simp [updMap, hlk, hk, List.append_assoc]
    · cases hlk : lookup hp with
      | none => simp [updMap, hlk, hk]
      | some e => simp [updMap, hlk, hk]

/-- `find?` by key over a list filtered to a key set agrees with `find?`
over the unfiltered list, provided the sought key is in the set. -/
lemma find?_filter_pk {α : Type} (pk : α → Nat) (cids : List Nat) (x : Nat)
    (hx : x ∈ cids) :
    ∀ l : List α,
      (l.filter (fun a => decide (pk a ∈ cids))).find? (fun a => pk a == x)
        = l.find? (fun a => pk a == x) := by
  intro l
  induction l with
  | nil => simp
  | cons a l ih =>
    by_cases hax : pk a = x
    · have hmem : pk a ∈ cids := hax ▸ hx
      rw [List.filter_cons_of_pos (by simpa using hmem)]
      rw [List.find?_cons_of_pos _ (by simpa using hax),
        List.find?_cons_of_pos _ (by simpa using hax)]
    · by_cases hin : pk a ∈ cids
      · rw [List.filter_cons_of_pos (by simpa using hin)]
        rw [List.find?_cons_of_neg _ (by simpa using hax),
          List.find?_cons_of_neg _ (by simpa using hax), ih]
      · rw [List.filter_cons_of_neg (by simpa using hin), ih,
          List.find?_cons_of_neg _ (by simpa using hax)]

/-- `get_related_compounds` collapsed to a single filter of the compounds
table: the early return on an empty link set coincides with filtering
against an empty id list. -/
lemma get_related_compounds_eq (db : DB) (ids : List Nat) :
    get_related_compounds db ids
      = db.phytochemicals.filter (fun c => decide (c.compound_id ∈
          (db.herb_phytochemical.filter
            (fun l => decide (l.herb_id ∈ ids))).map (fun l => l.compound_id))) := by
  unfold get_related_compounds
  by_cases h : (db.herb_phytochemical.filter (fun l => decide (l.herb_id ∈ ids))).isEmpty
  · rw [List.isEmpty_iff] at h
    simp [h]
  · simp only [h]
    simp

/-- Mirror of `get_related_compounds_eq` for `get_related_herbs`. -/
lemma get_related_herbs_eq (db : DB) (ids : List Nat) :
    get_related_herbs db ids
      = db.herbs.filter (fun h => decide (h.herb_id ∈
          (db.herb_phytochemical.filter
            (fun l => decide (l.compound_id ∈ ids))).map (fun l => l.herb_id))) := by
  unfold get_related_herbs
  by_cases h : (db.herb_phytochemical.filter (fun l => decide (l.compound_id ∈ ids))).isEmpty
  · rw [List.isEmpty_iff] at h
    simp [h]
  · simp only [h]
    simp

/-- The `compound_map` built by `get_herb`, read at the id of a matched
herb, equals the spec's per-herb embedded list. -/
lemma buildCompoundMap_spec (db : DB) (herb_ids : List Nat) (hid : Nat)
    (hmem : hid ∈ herb_ids) :
    buildCompoundMap (get_related_compounds db herb_ids)
        (db.herb_phytochemical.filter (fun l => decide (l.herb_id ∈ herb_ids))) hid
      = db.herb_phytochemical.filterMap (fun hp =>
          if hid = hp.herb_id then
            (db.phytochemicals.find? (fun c => c.compound_id == hp.compound_id)).map
              compoundEntry
          else none) := by
  rw [buildCompoundMap, foldl_updMap, List.nil_append, List.filterMap_filter]
  apply List.filterMap_congr
  intro hp hhp
  by_cases hk : hid = hp.herb_id
  · have hpin : hp.herb_id ∈ herb_ids := hk ▸ hmem
    rw [if_pos (by simpa using hpin), if_pos hk, if_pos hk]
    have hcid : hp.compound_id ∈
        (db.herb_phytochemical.filter
          (fun l => decide (l.herb_id ∈ herb_ids))).map (fun l => l.compound_id) := by
      exact List.mem_map_of_mem _ (List.mem_filter.mpr ⟨hhp, by simpa using hpin⟩)
    rw [get_related_compounds_eq]
    exact congrArg (Option.map compoundEntry)
      (find?_filter_pk (fun c : Compound => c.compound_id) _ _ hcid db.phytochemicals)
  · rw [if_neg hk]
    by_cases hpin : hp.herb_id ∈ herb_ids
    · rw [if_pos (by simpa using hpin), if_neg hk]
    · rw [if_neg (by simpa using hpin), if_neg hk]

/-- Mirror of `buildCompoundMap_spec` for `get_phytochemical`'s
`herb_map`. -/
lemma buildHerbMap_spec (db : DB) (compound_ids : List Nat) (cid : Nat)
    (hmem : cid ∈ compound_ids) :
    buildHerbMap (get_related_herbs db compound_ids)
        (db.herb_phytochemical.filter (fun l => decide (l.compound_id ∈ compound_ids))) cid
      = db.herb_phytochemical.filterMap (fun hp =>
          if cid = hp.compound_id then
            (db.herbs.find? (fun h => h.herb_id == hp.herb_id)).map herbRefEntry
          else none) := by
  rw [buildHerbMap, foldl_updMap, List.nil_append, List.filterMap_filter]
  apply List.filterMap_congr
  intro hp hhp
  by_cases hk : cid = hp.compound_id
  · have hpin : hp.compound_id ∈ compound_ids := hk ▸ hmem
    rw [if_pos (by simpa using hpin), if_pos hk, if_pos hk]
    have hhid : hp.herb_id ∈
        (db.herb_phytochemical.filter
          (fun l => decide (l.compound_id ∈ compound_ids))).map (fun l => l.herb_id) := by
      exact List.mem_map_of_mem _ (List.mem_filter.mpr ⟨hhp, by simpa using hpin⟩)
    rw [get_related_herbs_eq]
    exact congrArg (Option.map herbRefEntry)
      (find?_filter_pk (fun h : Herb => h.herb_id) _ _ hhid db.herbs)
  · rw [if_neg hk]
    by_cases hpin : hp.compound_id ∈ compound_ids
    · rw [if_pos (by simpa using hpin), if_neg hk]
    · rw [if_neg (by simpa using hpin), if_neg hk]

/-- Master characterization of `get_herb` on a nonempty match: the endpoint
returns one `herbRecordSpec` record per matched herb, in match order. -/
lemma get_herb_eq_spec (db : DB) (name : String)
    (hne : matchedHerbs db name ≠ []) :
    get_herb db name = .ok ((matchedHerbs db name).map (herbRecordSpec db)) := by
  unfold get_herb
  rw [if_neg (by simpa using hne)]
  refine congrArg Except.ok (List.map_congr_left ?_)
  intro h hh
  have hmem : h.herb_id ∈ (matchedHerbs db name).map (fun h => h.herb_id) :=
    List.mem_map_of_mem _ hh
  rw [herbRecordSpec]
  exact congrArg _ (buildCompoundMap_spec db _ h.herb_id hmem)

/-- Master characterization of `get_phytochemical` on a nonempty match. -/
lemma get_phytochemical_eq_spec (db : DB) (name : String)
    (hne : matchedCompounds db name ≠ []) :
    get_phytochemical db name
      = .ok ((matchedCompounds db name).map (compoundRecordSpec db)) := by
  unfold get_phytochemical
  rw [if_neg (by simpa using hne)]
  refine congrArg Except.ok (List.map_congr_left ?_)
  intro c hc
  have hmem : c.compound_id ∈ (matchedCompounds db name).map (fun c => c.compound_id) :=
    List.mem_map_of_mem _ hc
  rw [compoundRecordSpec]
  exact congrArg _ (buildHerbMap_spec db _ c.compound_id hmem)

/-- Unfolding one append-building fold of the document-assembly loop. -/
lemma foldl_append_pair {α β γ : Type} (f : α → β) (g : α → γ) :
    ∀ (l : List α) (acc : List β × List γ),
      l.foldl (fun p x => (p.1 ++ [f x], p.2 ++ [g x])) acc
        = (acc.1 ++ l.map f, acc.2 ++ l.map g) := by
  intro l
  induction l with
  | nil => intro acc; simp
  | cons x xs ih => intro acc; rw [List.foldl_cons, ih]; simp

/-- The assembly loops produce the mapped herb documents followed by the
mapped compound documents, and likewise for metadata. -/
lemma assembleCandidates_eq (herbs : List Herb) (compounds : List Compound) :
    assembleCandidates herbs compounds
      = (herbs.map herbDoc ++ compounds.map compoundDoc,
         herbs.map herbMeta ++ compounds.map compoundMeta) := by
  unfold assembleCandidates
  rw [foldl_append_pair, foldl_append_pair]
  simp

/-- When every result index is in bounds, the compilation loop succeeds and
returns the threshold-filtered results projected through the metadata
list, in result order. -/
lemma compileResults_eq (meta : List MetaRec) :
    ∀ results : List RerankResult,
      (∀ r ∈ results, r.index < meta.length) →
      compileResults meta results
        = some ((results.filter (fun r => decide ((1 / 5 : ℚ) < r.relevance_score))).map
            (fun r => projectMeta (meta.getD r.index default))) := by
  intro results
  induction results with
  | nil => intro _; simp [compileResults]
  | cons r rs ih =>
    intro hb
    have hr : r.index < meta.length := hb r (List.mem_cons_self r rs)
    have hrs : ∀ x ∈ rs, x.index < meta.length := fun x hx => hb x (List.mem_cons_of_mem r hx)
    have hget : meta.get? r.index = some (meta.getD r.index default) := by
      rw [List.getD_eq_getElem meta default hr, List.get?_eq_getElem?,
        List.getElem?_eq_getElem hr]
    by_cases hsc : (1 / 5 : ℚ) < r.relevance_score
    · rw [compileResults, if_pos hsc, hget, ih hrs,
        List.filter_cons_of_pos (by simpa using hsc)]
      simp
    · rw [compileResults, if_neg hsc, ih hrs,
        List.filter_cons_of_neg (by simpa using hsc)]

/-- When the rerank call succeeds with in-bounds indices, `search` returns
the filtered, projected, truncated result list. -/
lemma search_ok_eq (rerank : String → List String → Except String (List RerankResult))
    (db : DB) (q : String) (results : List RerankResult)
    (hok : rerank q (searchDocuments db) = .ok results)
    (hidx : ∀ r ∈ results, r.index < (searchMeta db).length) :
    search rerank db q
      = .ok (((results.filter (fun r => decide ((1 / 5 : ℚ) < r.relevance_score))).map
          (fun r => projectMeta ((searchMeta db).getD r.index default))).take 5) := by
  unfold search
  simp only [hok]
  rw [compileResults_eq (searchMeta db) results hidx]

/-! ### Claim theorems -/

/-- C2: for every herb-name substring with zero case-insensitive matches,
`GET /herbs/{herb_name}` fails with status 404 and detail "Herb not found";
symmetrically, for every compound-name substring with zero matches,
`GET /phytochemicals/{compound_name}` fails with 404 and detail
"Compound not found"; in both cases an error is produced instead of a
result body. -/
theorem notFound_on_zero_matches (db : DB) (hn cn : String) :
    (matchedHerbs db hn = [] →
      get_herb db hn = .error (.http 404 ("Herb not found"))) ∧
    (matchedCompounds db cn = [] →
      get_phytochemical db cn = .error (.http 404 ("Compound not found"))) := by
  constructor
  · intro h
    unfold get_herb
    rw [if_pos (by simp [h])]
  · intro h
    unfold get_phytochemical
    rw [if_pos (by simp [h])]

/-- Witness for C2 at a concrete database and the substring "zzz", which
matches neither collection. -/
theorem notFound_on_zero_matches_witness :
    (matchedHerbs exDB ("zzz") = [] ∧ matchedCompounds exDB ("zzz") = []) ∧
    get_herb exDB ("zzz") = .error (.http 404 ("Herb not found")) ∧
    get_phytochemical exDB ("zzz") = .error (.http 404 ("Compound not found")) :=
  ⟨⟨by decide, by decide⟩,
    (notFound_on_zero_matches exDB ("zzz") ("zzz")).1 (by decide),
    (notFound_on_zero_matches exDB ("zzz") ("zzz")).2 (by decide)⟩

/-- C5: `get_related_compounds` on the empty id list returns `[]`, and on
any id list for which the link collection has no matching link rows it
returns `[]`; symmetrically for `get_related_herbs`. -/
theorem related_empty (db : DB) (ids cds : List Nat) :
    get_related_compounds db [] = [] ∧
    get_related_herbs db [] = [] ∧
    ((∀ l ∈ db.herb_phytochemical, l.herb_id ∉ ids) →
      get_related_compounds db ids = []) ∧
    ((∀ l ∈ db.herb_phytochemical, l.compound_id ∉ cds) →
      get_related_herbs db cds = []) := by
  have hc : ∀ ids' : List Nat, (∀ l ∈ db.herb_phytochemical, l.herb_id ∉ ids') →
      get_related_compounds db ids' = [] := by
    intro ids' hno
    unfold get_related_compounds
    rw [if_pos]
    rw [List.isEmpty_iff, List.filter_eq_nil_iff]
    intro l hl
    simpa using hno l hl
  have hh : ∀ cds' : List Nat, (∀ l ∈ db.herb_phytochemical, l.compound_id ∉ cds') →
      get_related_herbs db cds' = [] := by
    intro cds' hno
    unfold get_related_herbs
    rw [if_pos]
    rw [List.isEmpty_iff, List.filter_eq_nil_iff]
    intro l hl
    simpa using hno l hl
  exact ⟨hc [] (by simp), hh [] (by simp), hc ids, hh cds⟩

/-- Witness for C5 at a concrete database and the id list `[7]`, which no
link row references. -/
theorem related_empty_witness :
    ((∀ l ∈ exDB.herb_phytochemical, l.herb_id ∉ [7]) ∧
      (∀ l ∈ exDB.herb_phytochemical, l.compound_id ∉ [7])) ∧
    get_related_compounds exDB [] = [] ∧
    get_related_herbs exDB [] = [] ∧
    get_related_compounds exDB [7] = [] ∧
    get_related_herbs exDB [7] = [] :=
  ⟨⟨by decide, by decide⟩,
    (related_empty exDB [7] [7]).1,
    (related_empty exDB [7] [7]).2.1,
    (related_empty exDB [7] [7]).2.2.1 (by decide),
    (related_empty exDB [7] [7]).2.2.2 (by decide)⟩

/-- C1: for every herb-name substring with at least one case-insensitive
match, `GET /herbs/{herb_name}` returns 200 with exactly one entry per
matching herb (in match order), and each entry's `phytochemicals` list
contains an entry exactly for the compounds of the table linked to that
herb's identifier through the link collection — no linked compound missing,
no unlinked compound present.  Assumes the integrity of the store: compound
ids are unique in the table and every link references an existing
compound. -/
theorem get_herb_exact_join (db : DB) (name : String)
    (hne : matchedHerbs db name ≠ [])
    (hpk : (db.phytochemicals.map (fun c => c.compound_id)).Nodup)
    (_hri : ∀ l ∈ db.herb_phytochemical, ∃ c ∈ db.phytochemicals,
      c.compound_id = l.compound_id) :
    ∃ res, get_herb db name = .ok res ∧
      res.length = (matchedHerbs db name).length ∧
      ∀ i (hi : i < (matchedHerbs db name).length),
        ∃ rec, res.get? i = some rec ∧
          rec.herb_name = ((matchedHerbs db name).get ⟨i, hi⟩).herb_name ∧
          ∀ e : PhytoEntry, e ∈ rec.phytochemicals ↔
            ∃ c ∈ db.phytochemicals,
              (∃ l ∈ db.herb_phytochemical,
                l.herb_id = ((matchedHerbs db name).get ⟨i, hi⟩).herb_id ∧
                l.compound_id = c.compound_id) ∧
              e = compoundEntry c := by
  refine ⟨_, get_herb_eq_spec db name hne, by simp, ?_⟩
  intro i hi
  refine ⟨herbRecordSpec db ((matchedHerbs db name).get ⟨i, hi⟩), ?_, rfl, ?_⟩
  · rw [List.get?_eq_getElem?, List.getElem?_map, List.getElem?_eq_getElem hi]
    simp
  · intro e
    constructor
    · intro he
      rw [herbRecordSpec] at he
      obtain ⟨hp, hhp, hsome⟩ := List.mem_filterMap.mp he
      by_cases hk : ((matchedHerbs db name).get ⟨i, hi⟩).herb_id = hp.herb_id
      · rw [if_pos hk] at hsome
        obtain ⟨c, hfind, hce⟩ := Option.map_eq_some'.mp hsome
        refine ⟨c, List.mem_of_find?_eq_some hfind, ⟨hp, hhp, hk.symm, ?_⟩, hce.symm⟩
        have hcid : c.compound_id = hp.compound_id := by
          simpa using List.find?_some hfind
        exact hcid.symm
      · rw [if_neg hk] at hsome
        cases hsome
    · rintro ⟨c, hc, ⟨l, hl, hlh, hlc⟩, rfl⟩
      rw [herbRecordSpec]
      apply List.mem_filterMap.mpr
      refine ⟨l, hl, ?_⟩
      rw [if_pos hlh.symm]
      cases hf : db.phytochemicals.find? (fun x => x.compound_id == l.compound_id) with
      | none =>
        exfalso
        rw [List.find?_eq_none] at hf
        exact hf c hc (by simp [hlc])
      | some c2 =>
        have hc2mem := List.mem_of_find?_eq_some hf
        have hc2id : c2.compound_id = l.compound_id := by simpa using List.find?_some hf
        have hcc : c2 = c :=
          List.inj_on_of_nodup_map hpk hc2mem hc (hc2id.trans hlc)
        rw [hcc]
        simp

/-- Witness for C1: on the integrity-respecting fixture database, the
substring "tur" matches the turmeric row. -/
theorem get_herb_exact_join_witness :
    (matchedHerbs exDBri ("tur") ≠ [] ∧
      (exDBri.phytochemicals.map (fun c => c.compound_id)).Nodup ∧
      (∀ l ∈ exDBri.herb_phytochemical, ∃ c ∈ exDBri.phytochemicals,
        c.compound_id = l.compound_id)) ∧
    (∃ res, get_herb exDBri ("tur") = .ok res ∧
      res.length = (matchedHerbs exDBri ("tur")).length ∧
      ∀ i (hi : i < (matchedHerbs exDBri ("tur")).length),
        ∃ rec, res.get? i = some rec ∧
          rec.herb_name = ((matchedHerbs exDBri ("tur")).get ⟨i, hi⟩).herb_name ∧
          ∀ e : PhytoEntry, e ∈ rec.phytochemicals ↔
            ∃ c ∈ exDBri.phytochemicals,
              (∃ l ∈ exDBri.herb_phytochemical,
                l.herb_id = ((matchedHerbs exDBri ("tur")).get ⟨i, hi⟩).herb_id ∧
                l.compound_id = c.compound_id) ∧
              e = compoundEntry c) :=
  ⟨⟨by decide, by decide, by decide⟩,
    get_herb_exact_join exDBri ("tur") (by decide) (by decide) (by decide)⟩

/-- C7: during result assembly a link row whose referenced compound (or
herb) cannot be found is silently skipped.  On any nonempty match the
endpoint still succeeds, and each entry's embedded list is exactly the
`filterMap` over the link rows of that entity in which a failed compound
(or herb) lookup contributes nothing while every successful lookup of any
other link still contributes its entry — the skipping discipline encoded by
`herbRecordSpec` and `compoundRecordSpec`. -/
theorem dangling_links_skipped (db : DB) (hn cn : String) :
    (matchedHerbs db hn ≠ [] →
      get_herb db hn = .ok ((matchedHerbs db hn).map (herbRecordSpec db))) ∧
    (matchedCompounds db cn ≠ [] →
      get_phytochemical db cn
        = .ok ((matchedCompounds db cn).map (compoundRecordSpec db))) :=
  ⟨fun hne => get_herb_eq_spec db hn hne,
   fun hne => get_phytochemical_eq_spec db cn hne⟩

/-- Witness for C7 on the fixture database whose link collection holds a
dangling link (herb 1, compound 99) next to the sound link (herb 1,
compound 1): both endpoints succeed and follow the skipping spec. -/
theorem dangling_links_skipped_witness :
    (matchedHerbs exDB ("tur") ≠ [] ∧ matchedCompounds exDB ("cur") ≠ []) ∧
    get_herb exDB ("tur") = .ok ((matchedHerbs exDB ("tur")).map (herbRecordSpec exDB)) ∧
    get_phytochemical exDB ("cur")
      = .ok ((matchedCompounds exDB ("cur")).map (compoundRecordSpec exDB)) :=
  ⟨⟨by decide, by decide⟩,
    (dangling_links_skipped exDB ("tur") ("cur")).1 (by decide),
    (dangling_links_skipped exDB ("tur") ("cur")).2 (by decide)⟩

/-- C6: both join helpers are insensitive to duplicate input identifiers —
the result equals the result for the deduplicated id list — and, because
each returns a filter of the corresponding entity table, duplicate ids
(including duplicate compound or herb ids collected from several link
rows) never make a distinct table row appear more than once: on a
duplicate-free table the result list is duplicate-free. -/
theorem related_dedup_idempotent (db : DB) (ids cds : List Nat) :
    get_related_compounds db ids = get_related_compounds db ids.dedup ∧
    get_related_herbs db cds = get_related_herbs db cds.dedup ∧
    (db.phytochemicals.Nodup → (get_related_compounds db ids).Nodup) ∧
    (db.herbs.Nodup → (get_related_herbs db cds).Nodup) := by
  have hlc : db.herb_phytochemical.filter (fun l => decide (l.herb_id ∈ ids))
      = db.herb_phytochemical.filter (fun l => decide (l.herb_id ∈ ids.dedup)) := by
    apply List.filter_congr
    intro l _
    simp [List.mem_dedup]
  have hlh : db.herb_phytochemical.filter (fun l => decide (l.compound_id ∈ cds))
      = db.herb_phytochemical.filter (fun l => decide (l.compound_id ∈ cds.dedup)) := by
    apply List.filter_congr
    intro l _
    simp [List.mem_dedup]
  refine ⟨?_, ?_, ?_, ?_⟩
  · rw [get_related_compounds_eq, get_related_compounds_eq, hlc]
  · rw [get_related_herbs_eq, get_related_herbs_eq, hlh]
  · intro hnd
    rw [get_related_compounds_eq]
    exact hnd.filter _
  · intro hnd
    rw [get_related_herbs_eq]
    exact hnd.filter _

/-- Witness for C6 at a concrete database and the duplicated id list
`[1, 1]`; the fixture link collection links herb 1 to compound 1 twice over
(once directly, once via a dangling id), exercising the duplicate-id
path. -/
theorem related_dedup_idempotent_witness :
    (exDB.phytochemicals.Nodup ∧ exDB.herbs.Nodup) ∧
    get_related_compounds exDB [1, 1] = get_related_compounds exDB ([1, 1] : List Nat).dedup ∧
    get_related_herbs exDB [1, 1] = get_related_herbs exDB ([1, 1] : List Nat).dedup ∧
    (get_related_compounds exDB [1, 1]).Nodup ∧
    (get_related_herbs exDB [1, 1]).Nodup :=
  ⟨⟨by decide, by decide⟩,
    (related_dedup_idempotent exDB [1, 1] [1, 1]).1,
    (related_dedup_idempotent exDB [1, 1] [1, 1]).2.1,
    (related_dedup_idempotent exDB [1, 1] [1, 1]).2.2.1 (by decide),
    (related_dedup_idempotent exDB [1, 1] [1, 1]).2.2.2 (by decide)⟩

/-- C4: if the external reranking call raises, `GET /search` fails with 500
and a detail string prefixed "Cohere error: " followed by the underlying
message, and no result list is returned. -/
theorem search_error_propagates
    (rerank : String → List String → Except String (List RerankResult))
    (db : DB) (q e : String)
    (herr : rerank q (searchDocuments db) = .error e) :
    search rerank db q = .error (.http 500 ("Cohere error: " ++ e)) := by
  simp [search, herr]

/-- Witness for C4 with a rerank call that always raises "boom". -/
theorem search_error_propagates_witness :
    exRerankFail ("boom") ("q") (searchDocuments exDB) = .error ("boom") ∧
    search (exRerankFail ("boom")) exDB ("q")
      = .error (.http 500 ("Cohere error: " ++ "boom")) :=
  ⟨rfl, search_error_propagates (exRerankFail ("boom")) exDB ("q") ("boom") rfl⟩

/-- C8: the candidate documents are assembled single-pass in fixed order —
all herbs first, in store order, then all compounds — each herb producing
the string "Herb: {name}. Uses: {uses}. Origin: {origin}" with metadata
(type "herb", name, info = uses, source url), each compound the string
"Compound: {name}. Function: {function}. Type: {compound_type}" with
metadata (type "compound", name, info = function, source url). -/
theorem search_document_assembly (db : DB) :
    searchDocuments db
      = db.herbs.map (fun h =>
          "Herb: " ++ h.herb_name ++ ". Uses: " ++ h.uses ++ ". Origin: " ++ h.origin)
        ++ db.phytochemicals.map (fun c =>
          "Compound: " ++ c.compound_name ++ ". Function: " ++ c.function
            ++ ". Type: " ++ c.compound_type) ∧
    searchMeta db
      = db.herbs.map (fun h =>
          ({ type := "herb", name := h.herb_name, info := h.uses,
             source_url := h.source_url } : MetaRec))
        ++ db.phytochemicals.map (fun c =>
          ({ type := "compound", name := c.compound_name, info := c.function,
             source_url := c.source_url } : MetaRec)) := by
  constructor <;>
  · simp only [searchDocuments, searchMeta, assembleCandidates_eq]
    rfl

/-- C10: the assembled document and metadata lists always have equal
length; zipped position by position, each document string is paired with
the metadata record synthesized from the same entity; hence any rerank
result index that is a valid position into the submitted document list has
an in-bounds metadata lookup. -/
theorem docs_meta_parallel (db : DB) :
    (searchDocuments db).length = (searchMeta db).length ∧
    (searchDocuments db).zip (searchMeta db)
      = db.herbs.map (fun h => (herbDoc h, herbMeta h))
        ++ db.phytochemicals.map (fun c => (compoundDoc c, compoundMeta c)) ∧
    ∀ r : RerankResult, r.index < (searchDocuments db).length →
      ∃ m, (searchMeta db).get? r.index = some m := by
  have hd : searchDocuments db
      = db.herbs.map herbDoc ++ db.phytochemicals.map compoundDoc := by
    simp [searchDocuments, assembleCandidates_eq]
  have hm : searchMeta db
      = db.herbs.map herbMeta ++ db.phytochemicals.map compoundMeta := by
    simp [searchMeta, assembleCandidates_eq]
  have hlen : (searchDocuments db).length = (searchMeta db).length := by
    simp [hd, hm]
  refine ⟨hlen, ?_, ?_⟩
  · rw [hd, hm, List.zip_append (by simp), List.zip_map', List.zip_map']
  · intro r hr
    have hr' : r.index < (searchMeta db).length := hlen ▸ hr
    refine ⟨(searchMeta db).getD r.index default, ?_⟩
    rw [List.getD_eq_getElem _ default hr', List.get?_eq_getElem?,
      List.getElem?_eq_getElem hr']

/-- Witness for C10 at the fixture database and a rerank result pointing at
index 0 of the two submitted documents. -/
theorem docs_meta_parallel_witness :
    (({ index := 0, relevance_score := 1 } : RerankResult).index
        < (searchDocuments exDB).length) ∧
    ∃ m, (searchMeta exDB).get?
        ({ index := 0, relevance_score := 1 } : RerankResult).index = some m :=
  ⟨by decide,
    (docs_meta_parallel exDB).2.2 { index := 0, relevance_score := 1 } (by decide)⟩

/-- C3: whenever the reranking call succeeds (with indices into the
submitted documents), `GET /search` returns a list that contains only
projections of results whose relevance score strictly exceeds 0.2, contains
at most 5 elements, and contains every qualifying result when fewer than 5
results qualify. -/
theorem search_relevance_filtering
    (rerank : String → List String → Except String (List RerankResult))
    (db : DB) (q : String) (results : List RerankResult)
    (hok : rerank q (searchDocuments db) = .ok results)
    (hidx : ∀ r ∈ results, r.index < (searchMeta db).length) :
    ∃ out, search rerank db q = .ok out ∧
      out.length ≤ 5 ∧
      (∀ x ∈ out, ∃ r ∈ results, (1 / 5 : ℚ) < r.relevance_score ∧
        x = projectMeta ((searchMeta db).getD r.index default)) ∧
      ((results.filter (fun r => decide ((1 / 5 : ℚ) < r.relevance_score))).length < 5 →
        ∀ r ∈ results, (1 / 5 : ℚ) < r.relevance_score →
          projectMeta ((searchMeta db).getD r.index default) ∈ out) := by
  refine ⟨_, search_ok_eq rerank db q results hok hidx, ?_, ?_, ?_⟩
  · rw [List.length_take]
    exact min_le_left _ _
  · intro x hx
    obtain ⟨r, hr, hxe⟩ := List.mem_map.mp (List.mem_of_mem_take hx)
    have hrf := List.mem_filter.mp hr
    exact ⟨r, hrf.1, by simpa using hrf.2, hxe.symm⟩
  · intro hlen r hr hsc
    have hmem : r ∈ results.filter (fun r => decide ((1 / 5 : ℚ) < r.relevance_score)) :=
      List.mem_filter.mpr ⟨hr, by simpa using hsc⟩
    have himg := List.mem_map_of_mem
      (fun r => projectMeta ((searchMeta db).getD r.index default)) hmem
    rw [List.take_of_length_le (by simpa using Nat.le_of_lt hlen)]
    exact himg

/-- Witness for C3 at the fixture database with a single scored result of
relevance 1 at index 0. -/
theorem search_relevance_filtering_witness :
    (exRerank exResults ("q") (searchDocuments exDB) = .ok exResults ∧
      ∀ r ∈ exResults, r.index < (searchMeta exDB).length) ∧
    (∃ out, search (exRerank exResults) exDB ("q") = .ok out ∧
      out.length ≤ 5 ∧
      (∀ x ∈ out, ∃ r ∈ exResults, (1 / 5 : ℚ) < r.relevance_score ∧
        x = projectMeta ((searchMeta exDB).getD r.index default)) ∧
      ((exResults.filter (fun r => decide ((1 / 5 : ℚ) < r.relevance_score))).length < 5 →
        ∀ r ∈ exResults, (1 / 5 : ℚ) < r.relevance_score →
          projectMeta ((searchMeta exDB).getD r.index default) ∈ out)) :=
  ⟨⟨rfl, by decide⟩,
    search_relevance_filtering (exRerank exResults) exDB ("q") exResults rfl (by decide)⟩

/-- C9: `GET /search` never fails with a not-found error — whenever the
reranking call succeeds (with indices into the submitted documents) the
endpoint returns 200 with a list, and in particular on a fully empty
database the outcome is the empty array rather than an error. -/
theorem search_never_notfound
    (rerank : String → List String → Except String (List RerankResult))
    (db : DB) (q : String) (results : List RerankResult)
    (hok : rerank q (searchDocuments db) = .ok results)
    (hidx : ∀ r ∈ results, r.index < (searchMeta db).length) :
    ∃ out, search rerank db q = .ok out ∧
      (db.herbs = [] → db.phytochemicals = [] → out = []) := by
  refine ⟨_, search_ok_eq rerank db q results hok hidx, ?_⟩
  intro hh hc
  have hm : (searchMeta db).length = 0 := by
    simp [searchMeta, assembleCandidates_eq, hh, hc]
  have hres : results = [] := by
    cases results with
    | nil => rfl
    | cons r rs =>
      exact absurd (hidx r (List.mem_cons_self r rs)) (by rw [hm]; exact Nat.not_lt_zero _)
  rw [hres]
  simp

/-- Witness for C9 at the empty database with an empty scored-result
list. -/
theorem search_never_notfound_witness :
    (exRerank [] ("q") (searchDocuments emptyDB) = .ok [] ∧
      ∀ r ∈ ([] : List RerankResult), r.index < (searchMeta emptyDB).length) ∧
    (∃ out, search (exRerank []) emptyDB ("q") = .ok out ∧
      (emptyDB.herbs = [] → emptyDB.phytochemicals = [] → out = [])) :=
  ⟨⟨rfl, by simp⟩,
    search_never_notfound (exRerank []) emptyDB ("q") [] rfl (by simp)⟩

end HerbIntel
